import Mathlib

/-!
Verification development for the python-enum library (src/enum/init module).

The library builds, at class-declaration time, a registry mapping each
constant key to an EnumItem record (key, value/label, name, sort, metadata),
merging the registries of base classes and the declarations of the class
body, and then answers read-only queries over the frozen registry.

Modelling conventions:
* Scalar runtime values (keys, labels, sort keys) are modelled by Value:
  the Python None, an integer, or a string.  Python 2 orders None below
  integers and integers below strings; strings compare lexicographically.
* The registry dict is modelled as an insertion-ordered association list;
  dictSet overwrites in place (keeping the position) exactly like a dict
  assignment, and iteration order is insertion order.
* Python sorted(...) is a stable ascending sort by the supplied key
  function; it is modelled with List.insertionSort, which is stable, over
  the reflexive total preorder induced by the key function.  A stable sort
  is uniquely determined by that data, so the model is exact.
* Fallible operations return Except PyErr; PyErr carries the data that the
  corresponding Python exception message interpolates.
-/

namespace PyEnum

/-- A Python scalar value as used by the library: None, an int, or a str. -/
inductive Value where
  | none
  | int (n : Int)
  | str (s : String)
  deriving DecidableEq

/-- Python truthiness of a Value: None, 0 and the empty string are falsy. -/
def Value.truthy : Value → Bool
  | Value.none => false
  | Value.int n => !(decide (n = 0))
  | Value.str s => !(decide (s.data = []))

/-- Python 2 ordering on scalars: None sorts below every int, ints sort
below every str, ints by numeric value, strings lexicographically. -/
def Value.le : Value → Value → Bool
  | Value.none, _ => true
  | Value.int _, Value.none => false
  | Value.int m, Value.int n => decide (m ≤ n)
  | Value.int _, Value.str _ => true
  | Value.str _, Value.none => false
  | Value.str _, Value.int _ => false
  | Value.str s, Value.str t => decide (s.data ≤ t.data)

/-- The metadata slot of an EnumItem: either the keyword-argument bag built
by the EnumItem constructor (an empty bag when no keywords are passed), or
a single opaque value assigned from the third element of a 3-tuple
declaration. -/
inductive Metadata where
  | bag (l : List (String × Value))
  | val (v : Value)
  deriving DecidableEq

/-- One symbolic constant: the EnumItem class.  The constructor defaults
are name=None, sort=None and an empty keyword bag for metadata. -/
structure EnumItem where
  key : Value
  value : Value
  name : Option String
  sort : Value
  metadata : Metadata
  deriving DecidableEq

/-- The exceptions the library can raise, carrying the data interpolated
into the corresponding Python exception message. -/
inductive PyErr where
  | valueExists (old incoming : EnumItem) (k : Value)
  | valueExistsName (old : EnumItem) (k : Value) (n : String)
  | keyError (k : Value)
  | attributeError
  | valueError
  | typeError
  deriving DecidableEq

/-- The registry dict, key to EnumItem, as an insertion-ordered
association list. -/
abbrev Registry := List (Value × EnumItem)

/-- dict lookup: the value bound to a key, if any. -/
def dictFind : Registry → Value → Option EnumItem
  | [], _ => Option.none
  | (k, v) :: rest, key => if k = key then some v else dictFind rest key

/-- dict assignment: overwrite in place when the key is present (keeping
its position), append otherwise. -/
def dictSet : Registry → Value → EnumItem → Registry
  | [], key, item => [(key, item)]
  | (k, v) :: rest, key, item =>
      if k = key then (k, item) :: rest else (k, v) :: dictSet rest key item

/-- dict.update: fold dict assignment over the second dict's pairs. -/
def dictUpdate (d e : Registry) : Registry :=
  e.foldl (fun acc p => dictSet acc p.1 p.2) d

/-- dict.keys() in iteration order. -/
def keys (r : Registry) : List Value := r.map (fun p => p.1)

/-- dict.values() in iteration order. -/
def dictValues (r : Registry) : List EnumItem := r.map (fun p => p.2)

/-- The per-base conflict scan of the registry builder: for each (k, v) of
the base registry, in the non-permissive (strict) mode, a conflict is
raised when k is already bound to an entry whose key field or value field
differs from the incoming entry's; the entries' name fields are not
compared. -/
def baseConflict (strict : Bool) (acc : Registry) : List (Value × EnumItem) → Option PyErr
  | [] => Option.none
  | (k, v) :: rest =>
      match dictFind acc k with
      | some old =>
          if strict && (!(decide (old.key = v.key)) || !(decide (old.value = v.value))) then
            some (PyErr.valueExists old v k)
          else baseConflict strict acc rest
      | Option.none => baseConflict strict acc rest

/-- Merging one base registry into the accumulator: scan all pairs for
conflicts, then dict.update the accumulator with the base's pairs. -/
def mergeBase (strict : Bool) (acc base : Registry) : Except PyErr Registry :=
  match baseConflict strict acc base with
  | some e => Except.error e
  | Option.none => Except.ok (dictUpdate acc base)

/-- Left-to-right merge of the bases' registries, from an accumulator. -/
def mergeBasesAux (strict : Bool) (acc : Registry) : List Registry → Except PyErr Registry
  | [] => Except.ok acc
  | b :: rest =>
      match mergeBase strict acc b with
      | Except.error e => Except.error e
      | Except.ok acc2 => mergeBasesAux strict acc2 rest

/-- Left-to-right merge of the bases' registries into an initially empty
accumulator. -/
def mergeBases (strict : Bool) (bases : List Registry) : Except PyErr Registry :=
  mergeBasesAux strict [] bases

/-- One declaration found on a class body: an already-built EnumItem, an
iterable of two or three elements, any other scalar, or a routine.  In
Python 2 a str has no iterator attribute, so string scalars take the
scalar branch. -/
inductive Decl where
  | item (it : EnumItem)
  | tup2 (a b : Value)
  | tup3 (a b c : Value)
  | scalar (v : Value)
  | routine
  deriving DecidableEq

/-- Whether a declared value is a routine (function or method). -/
def Decl.isRoutine : Decl → Bool
  | Decl.routine => true
  | _ => false

/-- Normalization of a declared spec into an EnumItem: an EnumItem is used
as-is, an iterable of 2 or 3 elements (key, label[, metadata]) becomes an
EnumItem with sort equal to the key and, when present, the third element
assigned to the metadata slot, and any other scalar v becomes an EnumItem
with key v and the attribute name as its label.  In every case the name
field is then overwritten with the attribute name.  Routines never reach
normalization (they are excluded beforehand); that arm is a dummy. -/
def normalize (n : String) (d : Decl) : EnumItem :=
  match d with
  | Decl.item it => { it with name := some n }
  | Decl.tup2 a b =>
      { key := a, value := b, name := some n, sort := a, metadata := Metadata.bag [] }
  | Decl.tup3 a b c =>
      { key := a, value := b, name := some n, sort := a, metadata := Metadata.val c }
  | Decl.scalar v =>
      { key := v, value := Value.str n, name := some n, sort := Value.none,
        metadata := Metadata.bag [] }
  | Decl.routine =>
      { key := Value.none, value := Value.none, name := some n, sort := Value.none,
        metadata := Metadata.bag [] }

/-- The comparison the class-body insertion check performs: the stored
EnumItem object compared, unequal-wise, against the attribute name
string.  EnumItem defines no equality, so an EnumItem instance never
equals a str and the comparison is always true. -/
def itemNeqName (_ : EnumItem) (_ : String) : Bool := true

/-- Insertion of one normalized class-body entry into the accumulator: in
strict mode, when the key is already bound, the stored item is compared
against the attribute name (always unequal, see itemNeqName) and the
conflict error is raised; otherwise the entry is stored under its key. -/
def insertDecl (strict : Bool) (acc : Registry) (n : String) (d : Decl) : Except PyErr Registry :=
  match dictFind acc (normalize n d).key with
  | some old =>
      if strict && itemNeqName old n then
        Except.error (PyErr.valueExistsName old (normalize n d).key n)
      else Except.ok (dictSet acc (normalize n d).key (normalize n d))
  | Option.none => Except.ok (dictSet acc (normalize n d).key (normalize n d))

/-- Whether an attribute name starts with the reserved underscore prefix. -/
def startsWithUnderscore (n : String) : Bool :=
  match n.data with
  | [] => false
  | c :: _ => decide (c = ('_' : Char))

/-- The exclusion test of the class-body scan: an attribute is skipped when
the underscore check is active and its name starts with an underscore, or
when its value is a routine. -/
def excluded (uc : Bool) (n : String) (d : Decl) : Bool :=
  (uc && startsWithUnderscore n) || d.isRoutine

/-- The class-body registration loop: skip excluded attributes, normalize
and insert the rest in declaration order, stopping at the first conflict. -/
def registerDecls (strict uc : Bool) (acc : Registry) : List (String × Decl) → Except PyErr Registry
  | [] => Except.ok acc
  | (n, d) :: rest =>
      if excluded uc n d then registerDecls strict uc acc rest
      else
        match insertDecl strict acc n d with
        | Except.error e => Except.error e
        | Except.ok acc2 => registerDecls strict uc acc2 rest

/-- The source of class-body declarations: the scanned attributes of the
class body (underscore exclusion active), or the legacy explicit table
bound to the single attribute named enums (underscore exclusion inactive). -/
inductive Body where
  | attrs (decls : List (String × Decl))
  | legacy (decls : List (String × Decl))

/-- The declarations carried by a class body. -/
def Body.decls : Body → List (String × Decl)
  | Body.attrs l => l
  | Body.legacy l => l

/-- Whether the underscore exclusion applies to a class body: it does for
scanned attributes, not for the legacy table. -/
def Body.underscoreCheck : Body → Bool
  | Body.attrs _ => true
  | Body.legacy _ => false

/-- The whole registry builder run by the metaclass: merge the bases'
registries left to right, then register the class-body declarations.  The
strict flag is the non-permissive mode (false for NonUniqueEnum
subclasses). -/
def buildRegistry (strict : Bool) (bases : List Registry) (body : Body) : Except PyErr Registry :=
  match mergeBases strict bases with
  | Except.error e => Except.error e
  | Except.ok acc => registerDecls strict body.underscoreCheck acc body.decls

/-- Python truthiness of an EnumItem instance: the class defines no
boolean conversion or length, so every instance is truthy. -/
def enumItemTruthy (_ : EnumItem) : Bool := true

/-- Indexed mapping access on the class: dict getitem (KeyError when the
key is absent), then, the item being truthy, its value field. -/
def getitem (r : Registry) (key : Value) : Except PyErr Value :=
  match dictFind r key with
  | some item => if enumItemTruthy item then Except.ok item.value else Except.ok Value.none
  | Option.none => Except.error (PyErr.keyError key)

/-- The display sort key the verbose listing computes for an entry: the
sort field when truthy, otherwise the key (the Python or-expression over
the two fields). -/
def sortKeyCode (x : EnumItem) : Value :=
  if x.sort.truthy then x.sort else x.key

/-- The preorder the verbose listing sorts by: comparison of the computed
display sort keys. -/
def entryLe (a b : EnumItem) : Prop := Value.le (sortKeyCode a) (sortKeyCode b) = true

instance : DecidableRel entryLe := fun a b => instDecidableEqBool _ _

/-- The registry's entries stably sorted ascending by the display sort
key, as the no-argument verbose call computes them. -/
def verboseEntries (r : Registry) : List EnumItem :=
  (dictValues r).insertionSort entryLe

/-- verbose() with no key: the (key, value) pairs of all entries, sorted
ascending by the display sort key. -/
def verboseList (r : Registry) : List (Value × Value) :=
  (verboseEntries r).map (fun x => (x.key, x.value))

/-- verbose(key, default): the value field of the entry bound to the key,
or the default when the key is absent. -/
def verboseKey (r : Registry) (key dflt : Value) : Value :=
  match dictFind r key with
  | some item => if enumItemTruthy item then item.value else dflt
  | Option.none => dflt

/-- get(key, default): alias of verbose with the fallback; a total
function, it never raises. -/
def get (r : Registry) (key dflt : Value) : Value :=
  verboseKey r key dflt

/-- The name field of an entry as a runtime value (None when unset). -/
def nameVal (it : EnumItem) : Value :=
  match it.name with
  | some s => Value.str s
  | Option.none => Value.none

/-- lookup(key, get): with the flag set, dict.get then the item's name when
found and the key itself otherwise; without the flag, dict indexing
(KeyError when absent) then the item's name. -/
def lookup (r : Registry) (key : Value) (g : Bool) : Except PyErr Value :=
  if g then
    match dictFind r key with
    | some item => Except.ok (if enumItemTruthy item then nameVal item else key)
    | Option.none => Except.ok key
  else
    match dictFind r key with
    | some item => Except.ok (nameVal item)
    | Option.none => Except.error (PyErr.keyError key)

/-- The attribute access the reverbose loop performs on each element it
iterates: the loop iterates dict.items(), which yields (key, entry)
tuples, and reads the value attribute off the tuple; a tuple has no such
attribute, so the access raises AttributeError. -/
def pairAttrValue (_ : Value × EnumItem) : Except PyErr Value :=
  Except.error PyErr.attributeError

/-- The attribute access reading the key attribute off a (key, entry)
tuple inside the reverbose loop; likewise an AttributeError. -/
def pairAttrKey (_ : Value × EnumItem) : Except PyErr Value :=
  Except.error PyErr.attributeError

/-- The scan of the reverbose loop over the dict.items() pairs: compare
each element's value attribute with the sought label and return its key
attribute on a match; both attribute accesses are on tuples. -/
def reverboseLoop (val : Value) : List (Value × EnumItem) → Except PyErr (Option Value)
  | [] => Except.ok Option.none
  | p :: rest =>
      match pairAttrValue p with
      | Except.error e => Except.error e
      | Except.ok v =>
          if v = val then
            match pairAttrKey p with
            | Except.error e => Except.error e
            | Except.ok k => Except.ok (some k)
          else reverboseLoop val rest

/-- reverbose(val, *args): scan the registry for an entry whose label
equals val; when the scan finds none, return the first extra positional
argument if one was supplied, else raise KeyError. -/
def reverbose (r : Registry) (val : Value) (args : List Value) : Except PyErr Value :=
  match reverboseLoop val r with
  | Except.error e => Except.error e
  | Except.ok (some k) => Except.ok k
  | Except.ok Option.none =>
      match args with
      | a :: _ => Except.ok a
      | [] => Except.error (PyErr.keyError val)

/-- metadata() with no arguments: the mapping from each entry's key to its
metadata slot. -/
def metadataAll (r : Registry) : List (Value × Metadata) :=
  (dictValues r).map (fun x => (x.key, x.metadata))

/-- metadata(key[, default]): dict.get with the optional default; the
result's metadata slot when it is an EnumItem, otherwise the result
itself (the default, or None when no default was supplied). -/
def metadataKey (r : Registry) (key : Value) (dflt : Option Value) : Metadata :=
  match dictFind r key with
  | some item => item.metadata
  | Option.none =>
      match dflt with
      | some d => Metadata.val d
      | Option.none => Metadata.val Value.none

/-- The Python str rendering of a scalar value. -/
def pyStr : Value → String
  | Value.int n => toString n
  | Value.str s => s
  | Value.none => ("None")

/-- max_length(): the maximum over the str-rendered lengths of all keys;
Python's max raises ValueError on an empty sequence. -/
def maxLength (r : Registry) : Except PyErr Nat :=
  match (keys r).map (fun k => (pyStr k).length) with
  | [] => Except.error PyErr.valueError
  | x :: xs => Except.ok (xs.foldl max x)

/-- The descending key order used by next_available_key's reverse sort. -/
def keyGe (a b : Value) : Prop := Value.le b a = true

instance : DecidableRel keyGe := fun a b => instDecidableEqBool _ _

/-- Adding the integer one to a scalar: defined on ints, a TypeError on
None or a str. -/
def addOneKey : Value → Except PyErr Value
  | Value.int n => Except.ok (Value.int (n + 1))
  | _ => Except.error PyErr.typeError

/-- next_available_key(): sort the keys descending and add one to the
first, or return zero when there are no keys. -/
def nextAvailableKey (r : Registry) : Except PyErr Value :=
  match (keys r).insertionSort keyGe with
  | [] => Except.ok (Value.int 0)
  | k :: _ => addOneKey k

/-- Modelled from the spec words of claim C3, for comparison with the
code's verbose listing: the display sort key falls back to the entry's
key only when the sort field is unset (None), not when it is merely
falsy. -/
def sortKeySpecWords (x : EnumItem) : Value :=
  match x.sort with
  | Value.none => x.key
  | s => s

/-- The preorder induced by the spec-words display sort key. -/
def entryLeSpecWords (a b : EnumItem) : Prop :=
  Value.le (sortKeySpecWords a) (sortKeySpecWords b) = true

instance : DecidableRel entryLeSpecWords := fun a b => instDecidableEqBool _ _

/-- The verbose listing as the spec words of claim C3 describe it. -/
def verboseListClaimed (r : Registry) : List (Value × Value) :=
  (((dictValues r).insertionSort entryLeSpecWords).map (fun x => (x.key, x.value)))

/-- The registry of the TestEnumA scenario of the class docstring: A = 1,
B = (2, b), C = (3, c, cmeta), _Z = (100, z); the underscore entry is
excluded. -/
def regA : Registry :=
  [(Value.int 1, ⟨Value.int 1, Value.str ("A"), some ("A"), Value.none, Metadata.bag []⟩),
   (Value.int 2, ⟨Value.int 2, Value.str ("b"), some ("B"), Value.int 2, Metadata.bag []⟩),
   (Value.int 3, ⟨Value.int 3, Value.str ("c"), some ("C"), Value.int 3,
     Metadata.val (Value.str ("cmeta"))⟩)]

/-- The class body of the TestEnumA scenario. -/
def bodyA : Body :=
  Body.attrs
    [("A", Decl.scalar (Value.int 1)),
     ("B", Decl.tup2 (Value.int 2) (Value.str ("b"))),
     ("C", Decl.tup3 (Value.int 3) (Value.str ("c")) (Value.str ("cmeta"))),
     ("_Z", Decl.tup2 (Value.int 100) (Value.str ("z")))]

/-- The registry builder produces regA from the TestEnumA class body. -/
theorem regA_build : buildRegistry true [] bodyA = Except.ok regA := rfl

/-- An entry declared with key 5 and a set-but-falsy sort field of 0. -/
def itemS0 : EnumItem :=
  ⟨Value.int 5, Value.str ("a"), some ("A"), Value.int 0, Metadata.bag []⟩

/-- An entry declared with key 3 and sort field 4. -/
def itemS4 : EnumItem :=
  ⟨Value.int 3, Value.str ("b"), some ("B"), Value.int 4, Metadata.bag []⟩

/-- A registry holding the two entries with explicit sort fields. -/
def regC3 : Registry := [(Value.int 5, itemS0), (Value.int 3, itemS4)]

/-- regC3 is reachable: it is built from a class body declaring the two
EnumItem objects directly. -/
theorem regC3_build :
    buildRegistry true []
      (Body.attrs
        [("A", Decl.item ⟨Value.int 5, Value.str ("a"), Option.none, Value.int 0, Metadata.bag []⟩),
         ("B", Decl.item ⟨Value.int 3, Value.str ("b"), Option.none, Value.int 4, Metadata.bag []⟩)])
    = Except.ok regC3 := rfl

/-- Reflexivity of the scalar ordering. -/
theorem Value.le_refl (a : Value) : Value.le a a = true := by
  cases a <;> simp [Value.le]

/-- Totality of the scalar ordering. -/
theorem Value.le_total (a b : Value) : (Value.le a b || Value.le b a) = true := by
  cases a <;> cases b <;> simp [Value.le] <;> first
    | exact Int.le_total _ _
    | exact LinearOrder.le_total _ _

/-- Transitivity of the scalar ordering. -/
theorem Value.le_trans (a b c : Value) (hab : Value.le a b = true)
    (hbc : Value.le b c = true) : Value.le a c = true := by
  cases a <;> cases b <;> cases c <;> simp_all [Value.le] <;> first
    | exact Preorder.le_trans _ _ _ hab hbc
    | skip

/-- Antisymmetry of the scalar ordering. -/
theorem Value.le_antisymm : ∀ (a b : Value), Value.le a b = true → Value.le b a = true → a = b
  | Value.none, Value.none, _, _ => rfl
  | Value.none, Value.int _, _, h2 => by simp [Value.le] at h2
  | Value.none, Value.str _, _, h2 => by simp [Value.le] at h2
  | Value.int _, Value.none, h1, _ => by simp [Value.le] at h1
  | Value.int m, Value.int n, h1, h2 => by
      simp only [Value.le, decide_eq_true_eq] at h1 h2
      exact congrArg Value.int (Int.le_antisymm h1 h2)
  | Value.int _, Value.str _, _, h2 => by simp [Value.le] at h2
  | Value.str _, Value.none, h1, _ => by simp [Value.le] at h1
  | Value.str _, Value.int _, h1, _ => by simp [Value.le] at h1
  | Value.str s, Value.str t, h1, h2 => by
      simp only [Value.le, decide_eq_true_eq] at h1 h2
      have h3 : s.data = t.data := PartialOrder.le_antisymm _ _ h1 h2
      cases s
      cases t
      exact congrArg (fun d => Value.str (String.mk d)) h3

instance : IsTotal EnumItem entryLe := by
  refine ⟨fun a b => ?_⟩
  have h := Value.le_total (sortKeyCode a) (sortKeyCode b)
  rw [Bool.or_eq_true] at h
  exact h

instance : IsTrans EnumItem entryLe :=
  ⟨fun a b c hab hbc => Value.le_trans (sortKeyCode a) (sortKeyCode b) (sortKeyCode c) hab hbc⟩

instance : IsTotal Value keyGe := by
  refine ⟨fun a b => ?_⟩
  have h := Value.le_total b a
  rw [Bool.or_eq_true] at h
  exact h

instance : IsTrans Value keyGe :=
  ⟨fun a b c hab hbc => Value.le_trans c b a hbc hab⟩

/-- A left fold of max is bounded by any upper bound of its arguments. -/
theorem foldlMax_le (m : Nat) : ∀ (xs : List Nat) (x : Nat), x ≤ m → (∀ y ∈ xs, y ≤ m) →
    xs.foldl max x ≤ m
  | [], _, hx, _ => hx
  | y :: ys, x, hx, hys =>
      foldlMax_le m ys (max x y) (max_le hx (hys y (List.mem_cons_self y ys)))
        (fun z hz => hys z (List.mem_cons_of_mem y hz))

/-- The seed of a left fold of max is below the fold. -/
theorem le_foldlMax : ∀ (xs : List Nat) (x : Nat), x ≤ xs.foldl max x
  | [], x => Nat.le_refl x
  | y :: ys, x => Nat.le_trans (Nat.le_max_left x y) (le_foldlMax ys (max x y))

/-- Every list element is below a left fold of max over the list. -/
theorem mem_le_foldlMax : ∀ (xs : List Nat) (x y : Nat), y ∈ xs → y ≤ xs.foldl max x
  | [], _, y, h => absurd h (List.not_mem_nil y)
  | z :: zs, x, y, h => by
      rcases List.mem_cons.mp h with rfl | h2
      · exact Nat.le_trans (Nat.le_max_right x y) (le_foldlMax zs (max x y))
      · exact mem_le_foldlMax zs (max x z) y h2

/-- Assigning a key the entry it is already bound to leaves a dict
unchanged. -/
theorem dictSet_self : ∀ (acc : Registry) (k : Value) (v : EnumItem),
    dictFind acc k = some v → dictSet acc k v = acc
  | [], k, _, h => by simp [dictFind] at h
  | (k1, v1) :: rest, k, v, h => by
      by_cases hk : k1 = k
      · subst hk
        simp [dictFind] at h
        simp [dictSet, h]
      · simp [dictFind, hk] at h
        simp [dictSet, hk, dictSet_self rest k v h]

/-- Updating a dict with pairs it already contains leaves it unchanged. -/
theorem dictUpdate_self : ∀ (base : List (Value × EnumItem)) (acc : Registry),
    (∀ p ∈ base, dictFind acc p.1 = some p.2) → dictUpdate acc base = acc
  | [], _, _ => rfl
  | p :: rest, acc, h => by
      have h1 := h p (List.mem_cons_self p rest)
      show dictUpdate (dictSet acc p.1 p.2) rest = acc
      rw [dictSet_self acc p.1 p.2 h1]
      exact dictUpdate_self rest acc (fun q hq => h q (List.mem_cons_of_mem p hq))

/-- The base-merge conflict scan accepts a base whose every key, when
already bound in the accumulator, is bound to an entry with the same key
field and value field. -/
theorem baseConflict_eq_none (acc : Registry) : ∀ (base : List (Value × EnumItem)),
    (∀ p ∈ base, ∀ old, dictFind acc p.1 = some old →
      old.key = p.2.key ∧ old.value = p.2.value) →
    baseConflict true acc base = Option.none
  | [], _ => rfl
  | (k, v) :: rest, h => by
      have hrest := baseConflict_eq_none acc rest
        (fun p hp old hold => h p (List.mem_cons_of_mem (k, v) hp) old hold)
      cases hfind : dictFind acc k with
      | none => simp [baseConflict, hfind, hrest]
      | some old =>
          have hh := h (k, v) (List.mem_cons_self (k, v) rest) old hfind
          simp [baseConflict, hfind, hh.1, hh.2, hrest]

/-- Conversely, when the conflict scan accepts a base, every key of the
base that is already bound in the accumulator is bound to an entry with
the same key field and value field. -/
theorem baseConflict_none_sound (acc : Registry) : ∀ (base : List (Value × EnumItem)),
    baseConflict true acc base = Option.none →
    ∀ p ∈ base, ∀ old, dictFind acc p.1 = some old →
      old.key = p.2.key ∧ old.value = p.2.value
  | [], _, p, hp, _, _ => absurd hp (List.not_mem_nil p)
  | (k, v) :: rest, h, p, hp, old, hold => by
      cases hfind : dictFind acc k with
      | none =>
          have hrest : baseConflict true acc rest = Option.none := by
            simpa [baseConflict, hfind] using h
          rcases List.mem_cons.mp hp with heq | hp2
          · subst heq
            rw [hfind] at hold
            exact Option.noConfusion hold
          · exact baseConflict_none_sound acc rest hrest p hp2 old hold
      | some old2 =>
          by_cases hc : old2.key = v.key ∧ old2.value = v.value
          · have hrest : baseConflict true acc rest = Option.none := by
              simpa [baseConflict, hfind, hc.1, hc.2] using h
            rcases List.mem_cons.mp hp with heq | hp2
            · subst heq
              rw [hfind] at hold
              have hoo : old2 = old := Option.some.inj hold
              subst hoo
              exact hc
            · exact baseConflict_none_sound acc rest hrest p hp2 old hold
          · exfalso
            have hcond : (!(decide (old2.key = v.key)) || !(decide (old2.value = v.value))) = true := by
              rcases not_and_or.mp hc with h1 | h1 <;> simp [h1]
            simp [baseConflict, hfind, hcond] at h

/-- Skipping excluded attributes inside the registration loop is the same
as filtering them away beforehand. -/
theorem registerDecls_filter (strict uc : Bool) : ∀ (l : List (String × Decl)) (acc : Registry),
    registerDecls strict uc acc l
      = registerDecls strict uc acc (l.filter (fun p => !(excluded uc p.1 p.2)))
  | [], _ => rfl
  | (n, d) :: rest, acc => by
      by_cases he : excluded uc n d
      · simp [registerDecls, he, List.filter_cons, registerDecls_filter strict uc rest acc]
      · cases hins : insertDecl strict acc n d with
        | error e => simp [registerDecls, he, List.filter_cons, hins]
        | ok acc2 =>
            simp [registerDecls, he, List.filter_cons, hins,
              registerDecls_filter strict uc rest acc2]

/-- Claim C1 (amended): when a registry is built by merging base-class
registries in non-permissive mode, inserting the inherited entries of a
base succeeds, producing the dict-update of the accumulator, exactly when
every base key already present in the accumulator is bound to an entry
whose key field and value field equal the incoming entry's; the entries'
names are not compared.  When the base's entries are already present
identically, the merge is a no-op, so diamond inheritance of the same
(key, name, value) entry succeeds and yields one entry. -/
theorem mergeBase_conflict_spec (acc base : Registry) :
    ((mergeBase true acc base = Except.ok (dictUpdate acc base)) ↔
      ∀ p ∈ base, ∀ old, dictFind acc p.1 = some old →
        old.key = p.2.key ∧ old.value = p.2.value)
  ∧ ((∀ p ∈ base, dictFind acc p.1 = some p.2) → mergeBase true acc base = Except.ok acc) := by
  constructor
  · constructor
    · intro h
      apply baseConflict_none_sound acc base
      cases hbc : baseConflict true acc base with
      | none => rfl
      | some e =>
          rw [mergeBase, hbc] at h
          exact Except.noConfusion h
    · intro h
      rw [mergeBase, baseConflict_eq_none acc base h]
  · intro h
    have h2 : ∀ p ∈ base, ∀ old, dictFind acc p.1 = some old →
        old.key = p.2.key ∧ old.value = p.2.value := by
      intro p hp old hold
      rw [h p hp] at hold
      have hoo : p.2 = old := Option.some.inj hold
      subst hoo
      exact ⟨rfl, rfl⟩
    rw [mergeBase, baseConflict_eq_none acc base h2, dictUpdate_self base acc h]

/-- A one-entry registry used to witness the diamond-merge no-op. -/
def regQ : Registry :=
  [(Value.int 9, ⟨Value.int 9, Value.str ("q"), some ("Q"), Value.none, Metadata.bag []⟩)]

/-- Witness for claim C1: merging a base whose single entry is already
present identically succeeds and leaves the registry unchanged. -/
theorem mergeBase_conflict_spec_witness : mergeBase true regQ regQ = Except.ok regQ :=
  (mergeBase_conflict_spec regQ regQ).2 (by decide)

/-- An entry with key 1, value x, registered under the name A. -/
def itemXA : EnumItem := ⟨Value.int 1, Value.str ("x"), some ("A"), Value.none, Metadata.bag []⟩

/-- An entry with key 1, value x, registered under the name B. -/
def itemXB : EnumItem := ⟨Value.int 1, Value.str ("x"), some ("B"), Value.none, Metadata.bag []⟩

/-- Counterexample to claim C1 as stated: two bases bind the same key to
entries whose (name, value) pairs differ (the names differ), yet the
non-permissive merge succeeds instead of failing, and the incoming entry
silently replaces the first. -/
theorem mergeBases_name_diff_merges :
    (itemXA.name ≠ itemXB.name ∧ itemXA.value = itemXB.value ∧ itemXA.key = itemXB.key)
  ∧ mergeBases true [[(Value.int 1, itemXA)], [(Value.int 1, itemXB)]]
      = Except.ok [(Value.int 1, itemXB)] :=
  ⟨⟨by decide, rfl, rfl⟩, rfl⟩

/-- An entry with key 1 registered under the name A, as a base class
would contribute it. -/
def itemBaseA : EnumItem := ⟨Value.int 1, Value.str ("A"), some ("A"), Value.none, Metadata.bag []⟩

/-- Claim C2 is the intent but the code misses it: re-declaring, on a
class body, the key 1 under the very name A it is already bound to raises
the conflict error all the same, because the insertion check compares the
stored EnumItem object itself, not its name, against the attribute name
string, a comparison that is never equal. -/
theorem redeclare_same_name_raises :
    buildRegistry true [[(Value.int 1, itemBaseA)]] (Body.attrs [("A", Decl.scalar (Value.int 1))])
      = Except.error (PyErr.valueExistsName itemBaseA (Value.int 1) ("A"))
  ∧ itemNeqName itemBaseA ("A") = true :=
  ⟨rfl, rfl⟩

/-- Claim C3 (amended): the no-argument verbose listing maps the sorted
entries to their (key, value) pairs, the sorted entries are a permutation
of the registry's entries, and they are sorted ascending by the display
sort key, which is the sort field when truthy and the key otherwise (the
fallback also fires on set-but-falsy sort values such as 0). -/
theorem verbose_sorted_spec (r : Registry) :
    verboseList r = (verboseEntries r).map (fun x => (x.key, x.value))
  ∧ (verboseEntries r).Perm (dictValues r)
  ∧ List.Sorted entryLe (verboseEntries r) :=
  ⟨rfl, List.perm_insertionSort entryLe (dictValues r),
    List.sorted_insertionSort entryLe (dictValues r)⟩

/-- Counterexample to claim C3 as stated: an entry whose sort field is
set to the falsy value 0 is ordered by its key, not by its sort value, so
the code's listing differs from the spec-words listing that falls back
only on an unset sort. -/
theorem verbose_falsy_sort_cex :
    verboseList regC3 = [(Value.int 3, Value.str ("b")), (Value.int 5, Value.str ("a"))]
  ∧ verboseListClaimed regC3 = [(Value.int 5, Value.str ("a")), (Value.int 3, Value.str ("b"))]
  ∧ verboseList regC3 ≠ verboseListClaimed regC3
  ∧ itemS0.sort ≠ Value.none :=
  ⟨rfl, rfl, by decide, by decide⟩

/-- Claim C4 is the intent but the code cannot meet it: reverbose iterates
the (key, entry) pairs of dict.items() and reads the value attribute off
each pair, so on any non-empty registry it raises AttributeError instead
of performing the reverse lookup; the round trip reverbose(verbose(k)) = k
therefore fails for every key. -/
theorem reverbose_attribute_error :
    reverbose regA (Value.str ("A")) [] = Except.error PyErr.attributeError
  ∧ reverbose regA (Value.str ("c")) [] = Except.error PyErr.attributeError
  ∧ verboseKey regA (Value.int 1) (Value.str ("")) = Value.str ("A") :=
  ⟨rfl, rfl, rfl⟩

/-- Claim C5: indexed mapping access returns the value (label) of the
entry bound to the key and raises KeyError exactly when the key is
absent; get returns the same label when the key is present and the
supplied default when it is absent, and, being a total function, never
raises. -/
theorem getitem_get_spec (r : Registry) (key dflt : Value) :
    (∀ it, dictFind r key = some it →
        getitem r key = Except.ok it.value ∧ get r key dflt = it.value)
  ∧ (dictFind r key = Option.none →
        getitem r key = Except.error (PyErr.keyError key) ∧ get r key dflt = dflt) := by
  constructor
  · intro it h
    constructor
    · simp [getitem, h, enumItemTruthy]
    · simp [get, verboseKey, h, enumItemTruthy]
  · intro h
    constructor
    · simp [getitem, h]
    · simp [get, verboseKey, h]

/-- Witness for claim C5, on the TestEnumA registry: indexing key 2 yields
its label, indexing the absent key 100 raises KeyError while get returns
the supplied default. -/
theorem getitem_get_spec_witness :
    (getitem regA (Value.int 2) = Except.ok (Value.str ("b"))
      ∧ get regA (Value.int 2) Value.none = Value.str ("b"))
  ∧ (getitem regA (Value.int 100) = Except.error (PyErr.keyError (Value.int 100))
      ∧ get regA (Value.int 100) (Value.str ("Z")) = Value.str ("Z")) :=
  ⟨(getitem_get_spec regA (Value.int 2) Value.none).1
      ⟨Value.int 2, Value.str ("b"), some ("B"), Value.int 2, Metadata.bag []⟩ rfl,
   (getitem_get_spec regA (Value.int 100) (Value.str ("Z"))).2 rfl⟩

/-- Claim C6: lookup without the flag returns the registered name of the
entry bound to the key and raises KeyError when the key is absent; with
the flag set it returns the registered name when the key is present and
the key itself unchanged when it is absent. -/
theorem lookup_spec (r : Registry) (key : Value) :
    (∀ it, dictFind r key = some it →
        lookup r key false = Except.ok (nameVal it) ∧ lookup r key true = Except.ok (nameVal it))
  ∧ (dictFind r key = Option.none →
        lookup r key false = Except.error (PyErr.keyError key)
          ∧ lookup r key true = Except.ok key) := by
  constructor
  · intro it h
    constructor <;> simp [lookup, h, enumItemTruthy]
  · intro h
    constructor <;> simp [lookup, h]

/-- Witness for claim C6, on the TestEnumA registry: key 3 looks up to the
name C in both modes; the absent key 100 raises without the flag and is
returned unchanged with it. -/
theorem lookup_spec_witness :
    (lookup regA (Value.int 3) false = Except.ok (Value.str ("C"))
      ∧ lookup regA (Value.int 3) true = Except.ok (Value.str ("C")))
  ∧ (lookup regA (Value.int 100) false = Except.error (PyErr.keyError (Value.int 100))
      ∧ lookup regA (Value.int 100) true = Except.ok (Value.int 100)) :=
  ⟨(lookup_spec regA (Value.int 3)).1
      ⟨Value.int 3, Value.str ("c"), some ("C"), Value.int 3,
        Metadata.val (Value.str ("cmeta"))⟩ rfl,
   (lookup_spec regA (Value.int 100)).2 rfl⟩

/-- Claim C7 is the intent but the code misses its first half: a key
declared as a bare scalar carries the empty keyword bag as metadata, not
None — the class's own doctest expects None there — while a key declared
as a 3-tuple does return the declared third element, and an absent key
with a supplied default returns that default. -/
theorem metadata_bare_scalar_bug :
    metadataKey regA (Value.int 1) Option.none = Metadata.bag []
  ∧ Metadata.bag [] ≠ Metadata.val Value.none
  ∧ metadataKey regA (Value.int 3) Option.none = Metadata.val (Value.str ("cmeta"))
  ∧ metadataKey regA (Value.int 100) (some (Value.str ("default")))
      = Metadata.val (Value.str ("default")) :=
  ⟨rfl, by decide, rfl, rfl⟩

/-- Claim C8: the registration loop drops exactly the attributes whose
name starts with an underscore (when the underscore check of the default
declaration mode is active) or whose value is a routine; in the legacy
explicit-table mode the underscore check is inactive and only routines
are dropped. -/
theorem registration_exclusion_spec (strict : Bool) (acc : Registry)
    (decls : List (String × Decl)) :
    Body.underscoreCheck (Body.attrs decls) = true
  ∧ Body.underscoreCheck (Body.legacy decls) = false
  ∧ registerDecls strict true acc decls
      = registerDecls strict true acc
          (decls.filter (fun p => !(startsWithUnderscore p.1 || p.2.isRoutine)))
  ∧ registerDecls strict false acc decls
      = registerDecls strict false acc (decls.filter (fun p => !(p.2.isRoutine))) := by
  refine ⟨rfl, rfl, ?_, ?_⟩
  · have h := registerDecls_filter strict true decls acc
    have hf : (fun (p : String × Decl) => !(excluded true p.1 p.2))
        = fun p => !(startsWithUnderscore p.1 || p.2.isRoutine) := by
      funext p
      simp [excluded]
    rw [hf] at h
    exact h
  · have h := registerDecls_filter strict false decls acc
    have hf : (fun (p : String × Decl) => !(excluded false p.1 p.2))
        = fun p => !(p.2.isRoutine) := by
      funext p
      simp [excluded]
    rw [hf] at h
    exact h

/-- Claim C9: next_available_key returns one greater than the greatest
key when the registry has a greatest key (in particular one greater than
the maximum of an all-numeric key set), and 0 when the registry is
empty. -/
theorem nextAvailableKey_spec (r : Registry) (M : Int) :
    (keys r = [] → nextAvailableKey r = Except.ok (Value.int 0))
  ∧ (Value.int M ∈ keys r → (∀ k ∈ keys r, Value.le k (Value.int M) = true) →
      nextAvailableKey r = Except.ok (Value.int (M + 1))) := by
  constructor
  · intro h
    simp [nextAvailableKey, h]
  · intro hM hub
    have hperm := List.perm_insertionSort keyGe (keys r)
    have hsorted : List.Sorted keyGe ((keys r).insertionSort keyGe) :=
      List.sorted_insertionSort keyGe (keys r)
    cases hs : (keys r).insertionSort keyGe with
    | nil =>
        exfalso
        have hlen := hperm.length_eq
        rw [hs] at hlen
        have : keys r = [] := List.eq_nil_of_length_eq_zero hlen.symm
        rw [this] at hM
        exact absurd hM (List.not_mem_nil _)
    | cons k t =>
        have hkmem : k ∈ keys r := by
          have hmem : k ∈ (keys r).insertionSort keyGe := by
            rw [hs]
            exact List.mem_cons_self k t
          exact (hperm.mem_iff).mp hmem
        have hMsort : Value.int M ∈ k :: t := by
          rw [← hs]
          exact (hperm.mem_iff).mpr hM
        have hheadmax : ∀ x ∈ k :: t, Value.le x k = true := by
          intro x hx
          rcases List.mem_cons.mp hx with rfl | hx2
          · exact Value.le_refl x
          · rw [hs] at hsorted
            exact (List.sorted_cons.mp hsorted).1 x hx2
        have h1 : Value.le (Value.int M) k = true := hheadmax (Value.int M) hMsort
        have h2 : Value.le k (Value.int M) = true := hub k hkmem
        have hk : k = Value.int M := Value.le_antisymm k (Value.int M) h2 h1
        simp [nextAvailableKey, hs, hk, addOneKey]

/-- Witness for claim C9: the empty registry yields 0, and the TestEnumA
registry with keys 1, 2, 3 yields 4. -/
theorem nextAvailableKey_spec_witness :
    nextAvailableKey ([] : Registry) = Except.ok (Value.int 0)
  ∧ nextAvailableKey regA = Except.ok (Value.int 4) :=
  ⟨(nextAvailableKey_spec [] 0).1 rfl,
   (nextAvailableKey_spec regA 3).2 (by decide) (by decide)⟩

/-- Claim C10: max_length returns the greatest length among the
str-rendered keys when the registry is non-empty, and raises the
ValueError of a max over an empty sequence when it is empty. -/
theorem maxLength_spec (r : Registry) (m : Nat) :
    (keys r = [] → maxLength r = Except.error PyErr.valueError)
  ∧ (m ∈ (keys r).map (fun k => (pyStr k).length) →
      (∀ n ∈ (keys r).map (fun k => (pyStr k).length), n ≤ m) →
      maxLength r = Except.ok m) := by
  constructor
  · intro h
    simp [maxLength, h]
  · intro hm hub
    cases hl : (keys r).map (fun k => (pyStr k).length) with
    | nil =>
        rw [hl] at hm
        exact absurd hm (List.not_mem_nil _)
    | cons x xs =>
        rw [hl] at hm hub
        have hxle : x ≤ m := hub x (List.mem_cons_self x xs)
        have hall : ∀ y ∈ xs, y ≤ m := fun y hy => hub y (List.mem_cons_of_mem x hy)
        have hle : xs.foldl max x ≤ m := foldlMax_le m xs x hxle hall
        have hge : m ≤ xs.foldl max x := by
          rcases List.mem_cons.mp hm with rfl | h2
          · exact le_foldlMax xs m
          · exact mem_le_foldlMax xs x m h2
        have hfold : xs.foldl max x = m := Nat.le_antisymm hle hge
        simp [maxLength, hl, hfold]

/-- A registry whose longest str-rendered key, 100, has three digits. -/
def regLong : Registry :=
  [(Value.int 7, ⟨Value.int 7, Value.str ("x"), some ("X"), Value.none, Metadata.bag []⟩),
   (Value.int 100, ⟨Value.int 100, Value.str ("y"), some ("Y"), Value.none, Metadata.bag []⟩)]

/-- Witness for claim C10: the empty registry raises ValueError, and the
two-key registry with keys 7 and 100 yields 3. -/
theorem maxLength_spec_witness :
    maxLength ([] : Registry) = Except.error PyErr.valueError
  ∧ maxLength regLong = Except.ok 3 :=
  ⟨(maxLength_spec [] 0).1 rfl, (maxLength_spec regLong 3).2 (by decide) (by decide)⟩

end PyEnum

